import Mathlib

/-!
Shallow embedding of the cloud weather pipeline
(`cloud_weather_project`: `src/process_weather.py`, `src/fetch_weather.py`,
`scripts/run_pipeline.py`) and proofs about the claims of its specification.

Modelling conventions:
* Timestamps are minutes since an epoch, in UTC (`Nat`).  A parsed time entry
  is `Option Nat`: `pd.to_datetime(..., errors="coerce", utc=True)` maps each
  raw entry independently to a timestamp or to `NaT`; an unparseable entry is
  modelled by its parse result `none`.
* Measurement values are `Option ℚ` (`none` models a null/NaN cell).
* A pandas DataFrame of hourly data is a `List HourlyRow`; a DataFrame with
  no columns at all (`pd.DataFrame()`) is modelled by the separate
  constructor `Df.empty`, because pandas raises a `KeyError` when
  `drop_duplicates(subset=["city", "time"])` is applied to it.
* Fallible pandas operations are `Except String`.
-/

namespace Weather

/-- Minutes per day: `dt.date` on a UTC timestamp keeps the UTC calendar day. -/
def minutesPerDay : Nat := 1440

/-- The UTC calendar date of a timestamp (`df["time"].dt.date`). -/
def dateOf (t : Nat) : Nat := t / minutesPerDay

/-- One row of the hourly table: the `time` and `city` columns plus the fixed
set of eleven hourly measurement variables requested by `fetch_weather.py`
(`HOURLY_VARS`).  `time = none` models `NaT`, a measurement `none` models NaN. -/
structure HourlyRow where
  time : Option Nat := none
  city : String := ""
  temperature_2m : Option ℚ := none
  relative_humidity_2m : Option ℚ := none
  dew_point_2m : Option ℚ := none
  apparent_temperature : Option ℚ := none
  precipitation : Option ℚ := none
  rain : Option ℚ := none
  snowfall : Option ℚ := none
  cloudcover : Option ℚ := none
  pressure_msl : Option ℚ := none
  windspeed_10m : Option ℚ := none
  winddirection_10m : Option ℚ := none
deriving DecidableEq, Repr

/-- The non-empty `hourly` block of a raw JSON payload: the `time` array (if
the key is present), with each entry already replaced by its parse result
under `pd.to_datetime(errors="coerce")`, and the remaining key/array pairs in
dict iteration order. -/
structure RawHourly where
  timeKey : Option (List (Option Nat)) := none
  values : List (String × List (Option ℚ)) := []
deriving DecidableEq, Repr

/-- A truthy raw payload dict: either its `hourly` entry is missing or an
empty dict (`raw.get("hourly", {})` falsy), or it is a non-empty block. -/
inductive RawPayload where
  | noHourly
  | withHourly (h : RawHourly)
deriving DecidableEq, Repr

/-- A per-location DataFrame: `pd.DataFrame()` with no columns at all
(returned by `_hourly_to_df` when the hourly block is missing/empty), or a
table that does carry the `time`/`city`/measurement columns. -/
inductive Df where
  | empty
  | table (rows : List HourlyRow)
deriving DecidableEq, Repr

/-- Value of column `k` at index `i` of an hourly block (`none` when the key
is absent from the block or the cell itself is null). -/
def col (h : RawHourly) (k : String) (i : Nat) : Option ℚ :=
  match h.values.lookup k with
  | none => none
  | some vs => (vs.get? i).getD none

/-- Row `i` of the normalized per-location table built by `_hourly_to_df`:
the parsed time entry, the measurement columns looked up by name, and the
`city` label column set to the location name. -/
def mkHourlyRow (h : RawHourly) (city : String) (tc : List (Option Nat))
    (i : Nat) : HourlyRow :=
  { time := (tc.get? i).getD none
    city := city
    temperature_2m := col h "temperature_2m" i
    relative_humidity_2m := col h "relative_humidity_2m" i
    dew_point_2m := col h "dew_point_2m" i
    apparent_temperature := col h "apparent_temperature" i
    precipitation := col h "precipitation" i
    rain := col h "rain" i
    snowfall := col h "snowfall" i
    cloudcover := col h "cloudcover" i
    pressure_msl := col h "pressure_msl" i
    windspeed_10m := col h "windspeed_10m" i
    winddirection_10m := col h "winddirection_10m" i }

/-- `_hourly_to_df(raw, city)`.  A missing/empty hourly block yields the
column-less empty frame.  Otherwise the frame is built from the `time`
column (absent key: empty list, hence zero rows) and every other key is
assigned as a column; pandas raises `ValueError` when a value array's length
differs from the length of the `time` index, which is the only way this
function can fail. -/
def hourlyToDf : RawPayload → String → Except String Df
  | .noHourly, _ => .ok .empty
  | .withHourly h, city =>
    if h.values.all (fun kv => kv.2.length == (h.timeKey.getD []).length) then
      .ok (.table ((List.range (h.timeKey.getD []).length).map
        (mkHourlyRow h city (h.timeKey.getD []))))
    else
      .error "Length of values does not match length of index"

/-- The dedup key of a row: the `(city, time)` column pair used by
`drop_duplicates(subset=["city", "time"])`.  pandas treats `NaT` cells as
equal to each other in `duplicated`, which the `Option` equality mirrors. -/
def rowKey (r : HourlyRow) : String × Option Nat := (r.city, r.time)

/-- `drop_duplicates(subset=["city", "time"])`: keep the first occurrence of
every key, scanning left to right with the set of already-seen keys. -/
def dropDupFirst : List HourlyRow → List (String × Option Nat) → List HourlyRow
  | [], _ => []
  | r :: rs, seen =>
    if rowKey r ∈ seen then dropDupFirst rs seen
    else r :: dropDupFirst rs (rowKey r :: seen)

/-- Sort rank of a `time` cell: `NaT` sorts last (`na_position="last"`). -/
def timeRank (t : Option Nat) : WithTop Nat :=
  match t with
  | none => ⊤
  | some n => (n : WithTop Nat)

/-- Row order used by `sort_values("time")`. -/
def timeLe (r s : HourlyRow) : Prop := timeRank r.time ≤ timeRank s.time

instance : DecidableRel timeLe :=
  fun r s => inferInstanceAs (Decidable (timeRank r.time ≤ timeRank s.time))

instance : IsTotal HourlyRow timeLe :=
  ⟨fun _ _ => le_total _ _⟩

instance : IsTrans HourlyRow timeLe :=
  ⟨fun _ _ _ h h' => le_trans h h'⟩

/-- Row order used by `sort_values(["city", "time"])`: lexicographic on the
city label (string order) and then the time rank. -/
def cityTimeLe (r s : HourlyRow) : Prop :=
  r.city < s.city ∨ (r.city = s.city ∧ timeRank r.time ≤ timeRank s.time)

instance : DecidableRel cityTimeLe :=
  fun r s =>
    inferInstanceAs
      (Decidable (r.city < s.city ∨ (r.city = s.city ∧ timeRank r.time ≤ timeRank s.time)))

instance : IsTotal HourlyRow cityTimeLe := by
  constructor
  intro a b
  rcases lt_trichotomy a.city b.city with h | h | h
  · exact Or.inl (Or.inl h)
  · rcases le_total (timeRank a.time) (timeRank b.time) with h' | h'
    · exact Or.inl (Or.inr ⟨h, h'⟩)
    · exact Or.inr (Or.inr ⟨h.symm, h'⟩)
  · exact Or.inr (Or.inl h)

instance : IsTrans HourlyRow cityTimeLe := by
  constructor
  intro a b c hab hbc
  rcases hab with hab | ⟨hab, hab'⟩
  · rcases hbc with hbc | ⟨hbc, _⟩
    · exact Or.inl (lt_trans hab hbc)
    · exact Or.inl (hbc ▸ hab)
  · rcases hbc with hbc | ⟨hbc, hbc'⟩
    · exact Or.inl (hab ▸ hbc)
    · exact Or.inr ⟨hab.trans hbc, le_trans hab' hbc'⟩

/-- The row tables among a list of per-location frames: `pd.concat` takes the
union of columns, so a column-less empty frame contributes nothing while any
`table` frame supplies the `city`/`time` columns. -/
def tablesOf (dfs : List Df) : List (List HourlyRow) :=
  dfs.filterMap fun d =>
    match d with
    | .empty => none
    | .table rows => some rows

/-- The tail of `combine_hourly` after the frames are built: concatenate,
deduplicate on `(city, time)` keeping the first occurrence, sort by `time`.
When every frame is column-less the concatenation has no `city`/`time`
columns and `drop_duplicates(subset=["city", "time"])` raises `KeyError`. -/
def finishCombine (dfs : List Df) : Except String (List HourlyRow) :=
  if (tablesOf dfs).isEmpty then
    .error "KeyError: Index(['city', 'time'], dtype='object')"
  else
    .ok (List.insertionSort timeLe (dropDupFirst (tablesOf dfs).flatten []))

/-- `combine_hourly(raw_archive, raw_forecast, city)`.  `none` models a
`None` or otherwise falsy payload argument (skipped by `if raw_archive:`);
the archive frame is built before the forecast frame and placed first in the
concatenation; with no payloads at all the function returns the empty frame
before any dedup is attempted. -/
def combine_hourly (a f : Option RawPayload) (city : String) :
    Except String (List HourlyRow) :=
  match a, f with
  | none, none => .ok []
  | some pa, none =>
    match hourlyToDf pa city with
    | .error e => .error e
    | .ok d => finishCombine [d]
  | none, some pf =>
    match hourlyToDf pf city with
    | .error e => .error e
    | .ok d => finishCombine [d]
  | some pa, some pf =>
    match hourlyToDf pa city, hourlyToDf pf city with
    | .error e, _ => .error e
    | .ok _, .error e => .error e
    | .ok d, .ok d' => finishCombine [d, d']

/-- The non-null values of a measurement column (pandas aggregation skips
NaN cells). -/
def nonNull (l : List (Option ℚ)) : List ℚ := l.filterMap id

/-- `mean` with skip-null semantics: NaN (`none`) on an all-null column. -/
def aggMean (l : List (Option ℚ)) : Option ℚ :=
  let v := nonNull l
  if v.isEmpty then none else some (v.sum / v.length)

/-- `min` with skip-null semantics: NaN (`none`) on an all-null column. -/
def aggMin (l : List (Option ℚ)) : Option ℚ := (nonNull l).min?

/-- `max` with skip-null semantics: NaN (`none`) on an all-null column. -/
def aggMax (l : List (Option ℚ)) : Option ℚ := (nonNull l).max?

/-- `sum` with skip-null semantics and pandas' default `min_count=0`:
an all-null column sums to `0.0`, never NaN. -/
def aggSum (l : List (Option ℚ)) : ℚ := (nonNull l).sum

/-- One row of the daily summary table produced by `summarize_daily`. -/
structure DailyRow where
  city : String
  date : Nat
  temperature_2m_mean : Option ℚ
  temperature_2m_min : Option ℚ
  temperature_2m_max : Option ℚ
  relative_humidity_2m_mean : Option ℚ
  precipitation_sum : ℚ
  rain_sum : ℚ
  snowfall_sum : ℚ
  windspeed_10m_mean : Option ℚ
  cloudcover_mean : Option ℚ
  pressure_msl_mean : Option ℚ
deriving DecidableEq, Repr

/-- The `agg_map` literal of `summarize_daily`, in source order. -/
def agg_map : List (String × List String) :=
  [("temperature_2m", ["mean", "min", "max"]),
   ("relative_humidity_2m", ["mean"]),
   ("precipitation", ["sum"]),
   ("rain", ["sum"]),
   ("snowfall", ["sum"]),
   ("windspeed_10m", ["mean"]),
   ("cloudcover", ["mean"]),
   ("pressure_msl", ["mean"])]

/-- The aggregate column names after the MultiIndex flatten
`"_".join([c for c in col if c])`: one `<field>_<aggregate>` name per
aggregate of `agg_map`, in source order. -/
def dailyAggColumns : List String :=
  agg_map.flatMap fun fa => fa.2.map fun a => fa.1 ++ "_" ++ a

/-- The full daily schema after `reset_index()`: the group columns followed
by the flattened aggregate columns. -/
def dailyColumns : List String := ["city", "date"] ++ dailyAggColumns

/-- The aggregate cells of a daily row, tagged with their column names
(sums wrapped in `some`, since the column is numeric and never null). -/
def dailyRowCells (r : DailyRow) : List (String × Option ℚ) :=
  [("temperature_2m_mean", r.temperature_2m_mean),
   ("temperature_2m_min", r.temperature_2m_min),
   ("temperature_2m_max", r.temperature_2m_max),
   ("relative_humidity_2m_mean", r.relative_humidity_2m_mean),
   ("precipitation_sum", some r.precipitation_sum),
   ("rain_sum", some r.rain_sum),
   ("snowfall_sum", some r.snowfall_sum),
   ("windspeed_10m_mean", r.windspeed_10m_mean),
   ("cloudcover_mean", r.cloudcover_mean),
   ("pressure_msl_mean", r.pressure_msl_mean)]

/-- The groupby key of a row: `(city, date)` where `date` is the UTC
calendar date of the `time` cell; a `NaT` time has no key and the row is
excluded from every group (`groupby` default `dropna=True`). -/
def groupKey (r : HourlyRow) : Option (String × Nat) :=
  r.time.map fun t => (r.city, dateOf t)

/-- The rows of a `(city, date)` group, in table order. -/
def groupRows (df : List HourlyRow) (k : String × Nat) : List HourlyRow :=
  df.filter fun r => groupKey r == some k

/-- The distinct group keys present in the table. -/
def groupKeys (df : List HourlyRow) : List (String × Nat) :=
  (df.filterMap groupKey).dedup

/-- Group-key order: `groupby(sort=True)` sorts keys by `(city, date)`. -/
def keyLe (a b : String × Nat) : Prop :=
  a.1 < b.1 ∨ (a.1 = b.1 ∧ a.2 ≤ b.2)

instance : DecidableRel keyLe :=
  fun a b => inferInstanceAs (Decidable (a.1 < b.1 ∨ (a.1 = b.1 ∧ a.2 ≤ b.2)))

instance : IsTotal (String × Nat) keyLe := by
  constructor
  intro a b
  rcases lt_trichotomy a.1 b.1 with h | h | h
  · exact Or.inl (Or.inl h)
  · rcases le_total a.2 b.2 with h' | h'
    · exact Or.inl (Or.inr ⟨h, h'⟩)
    · exact Or.inr (Or.inr ⟨h.symm, h'⟩)
  · exact Or.inr (Or.inl h)

instance : IsTrans (String × Nat) keyLe := by
  constructor
  intro a b c hab hbc
  rcases hab with hab | ⟨hab, hab'⟩
  · rcases hbc with hbc | ⟨hbc, _⟩
    · exact Or.inl (lt_trans hab hbc)
    · exact Or.inl (hbc ▸ hab)
  · rcases hbc with hbc | ⟨hbc, hbc'⟩
    · exact Or.inl (hab ▸ hbc)
    · exact Or.inr ⟨hab.trans hbc, le_trans hab' hbc'⟩

/-- The aggregate row of one `(city, date)` group. -/
def mkDailyRow (k : String × Nat) (rows : List HourlyRow) : DailyRow :=
  { city := k.1
    date := k.2
    temperature_2m_mean := aggMean (rows.map (·.temperature_2m))
    temperature_2m_min := aggMin (rows.map (·.temperature_2m))
    temperature_2m_max := aggMax (rows.map (·.temperature_2m))
    relative_humidity_2m_mean := aggMean (rows.map (·.relative_humidity_2m))
    precipitation_sum := aggSum (rows.map (·.precipitation))
    rain_sum := aggSum (rows.map (·.rain))
    snowfall_sum := aggSum (rows.map (·.snowfall))
    windspeed_10m_mean := aggMean (rows.map (·.windspeed_10m))
    cloudcover_mean := aggMean (rows.map (·.cloudcover))
    pressure_msl_mean := aggMean (rows.map (·.pressure_msl)) }

/-- `summarize_daily(hourly_df)`: the empty table maps to the empty table;
otherwise rows are grouped by `(city, date)` (rows with `NaT` time dropped),
keys sorted ascending, and each group aggregated per `agg_map` with
skip-null semantics. -/
def summarize_daily (df : List HourlyRow) : List DailyRow :=
  if df.isEmpty then []
  else
    (List.insertionSort keyLe (groupKeys df)).map fun k =>
      mkDailyRow k (groupRows df k)

/-!  ### The HTTP client (`fetch_weather.py`)  -/

/-- One HTTP response: status code and (JSON) body. -/
structure HttpResp where
  status : Nat
  body : String
deriving DecidableEq, Repr

/-- `status_forcelist` of the `urllib3.util.retry.Retry` configured in
`_build_session`. -/
def statusForcelist : List Nat := [429, 500, 502, 503, 504]

/-- One `session.get` through the mounted `HTTPAdapter`: the endpoint is a
stream of responses indexed by a request counter; a response whose status is
in the forcelist is retried at the transport layer until the retry budget
(`total=6`, `status=6`) is exhausted, and with `raise_on_status=False` the
last response is returned rather than raised.  Returns the delivered
response and the advanced request counter. -/
def transportGet (resp : Nat → HttpResp) (retriesLeft k : Nat) :
    HttpResp × Nat :=
  if (resp k).status ∈ statusForcelist then
    match retriesLeft with
    | 0 => (resp k, k + 1)
    | n + 1 => transportGet resp n (k + 1)
  else (resp k, k + 1)

/-- The retry budget of the transport layer (`Retry(total=6, status=6)`). -/
def transportRetries : Nat := 6

/-- The outer loop of `_get_json`, with `remaining + 1` loop iterations
still available (`for attempt in range(1, 8)` runs 7 iterations; the Python
`attempt` equals `7 - remaining`).  A 429 response sleeps and retries; any
other response goes through `raise_for_status()`: status < 400 returns the
JSON body; otherwise the `HTTPError` is re-raised once `attempt >= 7` and
swallowed (sleep, retry) before that.  If every iteration saw a 429 the loop
falls through to a final `raise_for_status()` on the last (429) response.
Returns the result (body or raised status) and the total request count. -/
def getJsonFrom (resp : Nat → HttpResp) (k fuel : Nat) :
    Except Nat String × Nat :=
  match fuel with
  | 0 => (.error (resp k).status, k)
  | remaining + 1 =>
    match transportGet resp transportRetries k with
    | (r, next) =>
      if r.status == 429 then
        if remaining == 0 then (.error r.status, next)
        else getJsonFrom resp next remaining
      else if r.status < 400 then (.ok r.body, next)
      else if remaining == 0 then (.error r.status, next)
      else getJsonFrom resp next remaining

/-- `_get_json(url, params)` against an endpoint modelled as a response
stream: 7 outer attempts starting from request counter 0.  The result is
`.ok body` on success or `.error status` for the raised `HTTPError`,
together with how many HTTP requests were issued in total. -/
def get_json (resp : Nat → HttpResp) : Except Nat String × Nat :=
  getJsonFrom resp 0 7

/-- `safe_city` of `save_raw_json`: `city.lower().replace(" ", "_")`.
The replaced pattern is the single character `" "`, so the replacement is
exactly a character-wise map applied after lower-casing. -/
def safeCity (city : String) : String :=
  String.mk ((city.data.map Char.toLower).map fun c => if c = ' ' then '_' else c)

/-- Python truthiness of an `Optional[str]`: `None` and `""` are falsy. -/
def truthyStr : Option String → Bool
  | none => false
  | some s => !(s == "")

/-- The file path produced by `save_raw_json(payload, raw_dir, city, kind,
start, end)`: the date window is part of the name exactly when both `start`
and `end` are truthy, regardless of `kind`. -/
def save_raw_json_path (rawDir city kind : String)
    (start stop : Option String) : String :=
  let name :=
    if truthyStr start && truthyStr stop then
      safeCity city ++ "__" ++ kind ++ "__" ++ start.getD "" ++ "__" ++
        stop.getD "" ++ ".json"
    else
      safeCity city ++ "__" ++ kind ++ ".json"
  rawDir ++ "/" ++ name

/-!  ### The pipeline (`scripts/run_pipeline.py`)  -/

/-- A configured location (`load_locations`). -/
structure Location where
  name : String
  latitude : ℚ := 0
  longitude : ℚ := 0
  timezone : String := "UTC"
deriving DecidableEq, Repr

/-- What one location's two endpoint calls produced: `fail` when the HTTP
client exhausted its retries (a `_worker_fetch_city` exception), otherwise
the archive and forecast payloads (`none` models a falsy payload). -/
inductive FetchOutcome where
  | fail
  | ok (archive forecast : Option RawPayload)
deriving DecidableEq, Repr

/-- One per-location task of the Dask graph: the location plus the outcome
of its fetches. -/
structure LocTask where
  loc : Location
  outcome : FetchOutcome
deriving DecidableEq, Repr

/-- A write to the persistence layer. -/
inductive WriteEvent where
  | rawJson (path : String)
  | parquet (path : String)
  | csv (path : String)
deriving DecidableEq, Repr

/-- The raw-payload files written by `_worker_fetch_city`: both fetches
succeed before either file is written, and both `save_raw_json` calls
receive the same `start`/`end` window (lines 45-46 of `run_pipeline.py`). -/
def workerWrites (rawDir : String) (t : LocTask) (start stop : String) :
    List WriteEvent :=
  match t.outcome with
  | .fail => []
  | .ok _ _ =>
    [.rawJson (save_raw_json_path rawDir t.loc.name "archive"
        (some start) (some stop)),
     .rawJson (save_raw_json_path rawDir t.loc.name "forecast"
        (some start) (some stop))]

/-- The value returned by `_worker_fetch_city` (or the exception it
raises): a fetch failure or a `combine_hourly` error propagates; an empty
combined frame becomes `None`; otherwise the per-location hourly table. -/
def workerResult (t : LocTask) : Except String (Option (List HourlyRow)) :=
  match t.outcome with
  | .fail => .error ("FetchError: " ++ t.loc.name)
  | .ok a f =>
    match combine_hourly a f t.loc.name with
    | .error e => .error e
    | .ok hourly => .ok (if hourly.isEmpty then none else some hourly)

/-- Whether `dask.compute` re-raises some task's exception. -/
def anyWorkerError (tasks : List LocTask) : Bool :=
  (tasks.map workerResult).any fun r =>
    match r with
    | .error _ => true
    | .ok _ => false

/-- `all_hourly`: the non-`None` per-location tables, in task order. -/
def allHourlyOf (tasks : List LocTask) : List (List HourlyRow) :=
  (tasks.map workerResult).filterMap fun r =>
    match r with
    | .ok (some rows) => some rows
    | _ => none

/-- The pipeline-level merge: `pd.concat(all_hourly, ignore_index=True)`
followed by `sort_values(["city", "time"])` — no deduplication. -/
def mergeAllHourly (tables : List (List HourlyRow)) : List HourlyRow :=
  List.insertionSort cityTimeLe tables.flatten

/-- The observable outcome of one `run_pipeline` invocation. -/
structure PipelineRun where
  exitCode : Nat
  writes : List WriteEvent
  hourly : Option (List HourlyRow)
  daily : Option (List DailyRow)
deriving DecidableEq, Repr

/-- `run_pipeline(start, end)` over the configured locations, with each
location's fetch outcome given: every task runs (writing its raw files on
fetch success); a task exception re-raised by `dask.compute` aborts the run
with a non-zero exit before any processed table is written; an empty
`all_hourly` aborts via `sys.exit(1)`; otherwise the merged hourly table and
its daily summary are written as parquet then CSV under `processed/`. -/
def run_pipeline (tasks : List LocTask) (start stop dataDir : String) :
    PipelineRun :=
  let rawDir := dataDir ++ "/raw"
  let processedDir := dataDir ++ "/processed"
  let rawWrites :=
    (tasks.map fun t => workerWrites rawDir t start stop).flatten
  if anyWorkerError tasks then
    { exitCode := 1, writes := rawWrites, hourly := none, daily := none }
  else if (allHourlyOf tasks).isEmpty then
    { exitCode := 1, writes := rawWrites, hourly := none, daily := none }
  else
    let hourlyDf := mergeAllHourly (allHourlyOf tasks)
    let dailyDf := summarize_daily hourlyDf
    { exitCode := 0
      writes := rawWrites ++
        [.parquet (processedDir ++ "/hourly.parquet"),
         .parquet (processedDir ++ "/daily_summary.parquet"),
         .csv (processedDir ++ "/hourly.csv"),
         .csv (processedDir ++ "/daily_summary.csv")]
      hourly := some hourlyDf
      daily := some dailyDf }

/-!  ### Lemmas about `dropDupFirst`  -/

theorem countP_dropDupFirst_of_mem (k : String × Option Nat) :
    ∀ (l : List HourlyRow) (seen : List (String × Option Nat)), k ∈ seen →
      (dropDupFirst l seen).countP (fun r => rowKey r == k) = 0
  | [], _, _ => rfl
  | r :: rs, seen, hk => by
    unfold dropDupFirst
    by_cases h : rowKey r ∈ seen
    · rw [if_pos h]
      exact countP_dropDupFirst_of_mem k rs seen hk
    · rw [if_neg h, List.countP_cons]
      have hne : (rowKey r == k) = false := by
        rw [beq_eq_false_iff_ne]
        intro he
        exact h (he ▸ hk)
      rw [hne,
        countP_dropDupFirst_of_mem k rs (rowKey r :: seen)
          (List.mem_cons_of_mem _ hk)]
      simp

theorem countP_dropDupFirst_of_not_mem (k : String × Option Nat) :
    ∀ (l : List HourlyRow) (seen : List (String × Option Nat)), k ∉ seen →
      (dropDupFirst l seen).countP (fun r => rowKey r == k) =
        if l.any (fun r => rowKey r == k) then 1 else 0
  | [], _, _ => rfl
  | r :: rs, seen, hk => by
    unfold dropDupFirst
    by_cases h : rowKey r ∈ seen
    · rw [if_pos h, countP_dropDupFirst_of_not_mem k rs seen hk]
      have hne : (rowKey r == k) = false := by
        rw [beq_eq_false_iff_ne]
        intro he
        exact hk (he ▸ h)
      simp [List.any_cons, hne]
    · rw [if_neg h, List.countP_cons]
      by_cases he : rowKey r = k
      · have hb : (rowKey r == k) = true := beq_iff_eq.mpr he
        rw [hb,
          countP_dropDupFirst_of_mem k rs (rowKey r :: seen)
            (he ▸ List.mem_cons_self _ _)]
        simp [List.any_cons, hb]
      · have hb : (rowKey r == k) = false := beq_eq_false_iff_ne.mpr he
        have hk' : k ∉ rowKey r :: seen := by
          intro hmem
          rcases List.mem_cons.mp hmem with h1 | h1

          · exact he h1.symm
          · exact hk h1
        rw [hb, countP_dropDupFirst_of_not_mem k rs (rowKey r :: seen) hk']
        simp [List.any_cons, hb]

theorem mem_of_mem_dropDupFirst :
    ∀ (l : List HourlyRow) (seen : List (String × Option Nat)) (r : HourlyRow),
      r ∈ dropDupFirst l seen → r ∈ l
  | [], _, _, h => absurd h (List.not_mem_nil _)
  | x :: xs, seen, r, h => by
    unfold dropDupFirst at h
    by_cases hx : rowKey x ∈ seen
    · rw [if_pos hx] at h
      exact List.mem_cons_of_mem _ (mem_of_mem_dropDupFirst xs seen r h)
    · rw [if_neg hx] at h
      rcases List.mem_cons.mp h with h1 | h1
      · exact h1 ▸ List.mem_cons_self _ _
      · exact List.mem_cons_of_mem _
          (mem_of_mem_dropDupFirst xs (rowKey x :: seen) r h1)

theorem key_not_mem_seen_of_mem_dropDupFirst :
    ∀ (l : List HourlyRow) (seen : List (String × Option Nat)) (r : HourlyRow),
      r ∈ dropDupFirst l seen → rowKey r ∉ seen
  | [], _, _, h => absurd h (List.not_mem_nil _)
  | x :: xs, seen, r, h => by
    unfold dropDupFirst at h
    by_cases hx : rowKey x ∈ seen
    · rw [if_pos hx] at h
      exact key_not_mem_seen_of_mem_dropDupFirst xs seen r h
    · rw [if_neg hx] at h
      rcases List.mem_cons.mp h with h1 | h1
      · exact h1 ▸ hx
      · intro hmem
        exact key_not_mem_seen_of_mem_dropDupFirst xs (rowKey x :: seen) r h1
          (List.mem_cons_of_mem _ hmem)

theorem find?_of_mem_dropDupFirst :
    ∀ (l : List HourlyRow) (seen : List (String × Option Nat)) (r : HourlyRow),
      r ∈ dropDupFirst l seen →
        l.find? (fun x => rowKey x == rowKey r) = some r
  | [], _, _, h => absurd h (List.not_mem_nil _)
  | x :: xs, seen, r, h => by
    unfold dropDupFirst at h
    by_cases hx : rowKey x ∈ seen
    · rw [if_pos hx] at h
      have hr : rowKey r ∉ seen := key_not_mem_seen_of_mem_dropDupFirst xs seen r h
      have hne : (rowKey x == rowKey r) = false := by
        rw [beq_eq_false_iff_ne]
        intro he
        exact hr (he ▸ hx)
      rw [List.find?_cons, hne]
      exact find?_of_mem_dropDupFirst xs seen r h
    · rw [if_neg hx] at h
      rcases List.mem_cons.mp h with h1 | h1
      · subst h1
        rw [List.find?_cons, beq_self_eq_true]
      · have hr : rowKey r ∉ rowKey x :: seen :=
          key_not_mem_seen_of_mem_dropDupFirst xs (rowKey x :: seen) r h1
        have hne : (rowKey x == rowKey r) = false := by
          rw [beq_eq_false_iff_ne]
          intro he
          exact hr (he ▸ List.mem_cons_self _ _)
        rw [List.find?_cons, hne]
        exact find?_of_mem_dropDupFirst xs (rowKey x :: seen) r h1

theorem nodup_keys_dropDupFirst :
    ∀ (l : List HourlyRow) (seen : List (String × Option Nat)),
      ((dropDupFirst l seen).map rowKey).Nodup
  | [], _ => List.nodup_nil
  | x :: xs, seen => by
    unfold dropDupFirst
    by_cases hx : rowKey x ∈ seen
    · rw [if_pos hx]
      exact nodup_keys_dropDupFirst xs seen
    · rw [if_neg hx]
      rw [List.map_cons, List.nodup_cons]
      constructor
      · intro hmem
        rcases List.mem_map.mp hmem with ⟨r, hr, hkey⟩
        exact key_not_mem_seen_of_mem_dropDupFirst xs (rowKey x :: seen) r hr
          (hkey ▸ List.mem_cons_self _ _)
      · exact nodup_keys_dropDupFirst xs (rowKey x :: seen)

theorem find?_append_of_exists {α : Type} (p : α → Bool) :
    ∀ (l₁ l₂ : List α) (r : α), (∃ x ∈ l₁, p x = true) →
      (l₁ ++ l₂).find? p = some r → l₁.find? p = some r
  | [], _, _, hex, _ => by
    rcases hex with ⟨x, hx, _⟩
    exact absurd hx (List.not_mem_nil _)
  | a :: l₁, l₂, r, hex, hfind => by
    rw [List.cons_append, List.find?_cons] at hfind
    rw [List.find?_cons]
    by_cases ha : p a = true
    · rw [ha] at hfind ⊢
      exact hfind
    · have ha' : p a = false := Bool.eq_false_iff.mpr ha
      rw [ha'] at hfind ⊢
      apply find?_append_of_exists p l₁ l₂ r _ hfind
      rcases hex with ⟨x, hx, hpx⟩
      rcases List.mem_cons.mp hx with h1 | h1
      · exact absurd (h1 ▸ hpx) ha
      · exact ⟨x, h1, hpx⟩

/-!  ### Inversion lemmas for `_hourly_to_df` and `combine_hourly`  -/

theorem finishCombine_ok {dfs : List Df} {out : List HourlyRow}
    (h : finishCombine dfs = .ok out) :
    out = List.insertionSort timeLe (dropDupFirst (tablesOf dfs).flatten []) := by
  unfold finishCombine at h
  split at h
  · exact absurd h (by simp)
  · exact (Except.ok.inj h).symm

theorem hourlyToDf_table_eq {h : RawHourly} {city : String}
    {rows : List HourlyRow}
    (hok : hourlyToDf (.withHourly h) city = .ok (.table rows)) :
    rows = (List.range (h.timeKey.getD []).length).map
      (mkHourlyRow h city (h.timeKey.getD [])) := by
  simp only [hourlyToDf] at hok
  split at hok
  · exact (Df.table.inj (Except.ok.inj hok)).symm
  · exact absurd hok (by simp)

theorem hourlyToDf_city {p : RawPayload} {city : String}
    {rows : List HourlyRow}
    (hok : hourlyToDf p city = .ok (.table rows)) :
    ∀ r ∈ rows, r.city = city := by
  cases p with
  | noHourly =>
    exact absurd hok (by simp [hourlyToDf])
  | withHourly h =>
    intro r hr
    rw [hourlyToDf_table_eq hok] at hr
    rcases List.mem_map.mp hr with ⟨i, _, hrow⟩
    rw [← hrow]
    rfl

theorem combine_hourly_ok_inv {a f : Option RawPayload} {city : String}
    {out : List HourlyRow}
    (hok : combine_hourly a f city = .ok out) :
    out = [] ∨
      ∃ dfs : List Df, (∀ d ∈ dfs, ∃ p, hourlyToDf p city = .ok d) ∧
        out = List.insertionSort timeLe (dropDupFirst (tablesOf dfs).flatten []) := by
  cases a with
  | none =>
    cases f with
    | none =>
      left
      exact (Except.ok.inj hok).symm
    | some pf =>
      cases hdf : hourlyToDf pf city with
      | error e =>
        simp only [combine_hourly, hdf] at hok
        exact Except.noConfusion hok
      | ok d =>
        simp only [combine_hourly, hdf] at hok
        right
        refine ⟨[d], ?_, finishCombine_ok hok⟩
        intro d' hd'
        rcases List.mem_singleton.mp hd' with rfl
        exact ⟨pf, hdf⟩
  | some pa =>
    cases f with
    | none =>
      cases hda : hourlyToDf pa city with
      | error e =>
        simp only [combine_hourly, hda] at hok
        exact Except.noConfusion hok
      | ok d =>
        simp only [combine_hourly, hda] at hok
        right
        refine ⟨[d], ?_, finishCombine_ok hok⟩
        intro d' hd'
        rcases List.mem_singleton.mp hd' with rfl
        exact ⟨pa, hda⟩
    | some pf =>
      cases hda : hourlyToDf pa city with
      | error e =>
        simp only [combine_hourly, hda] at hok
        exact Except.noConfusion hok
      | ok d =>
        cases hdf : hourlyToDf pf city with
        | error e =>
          simp only [combine_hourly, hda, hdf] at hok
          exact Except.noConfusion hok
        | ok d' =>
          simp only [combine_hourly, hda, hdf] at hok
          right
          refine ⟨[d, d'], ?_, finishCombine_ok hok⟩
          intro x hx
          rcases List.mem_cons.mp hx with rfl | hx'
          · exact ⟨pa, hda⟩
          · rcases List.mem_singleton.mp hx' with rfl
            exact ⟨pf, hdf⟩

theorem mem_tablesOf {dfs : List Df} {rows : List HourlyRow}
    (h : rows ∈ tablesOf dfs) : Df.table rows ∈ dfs := by
  rcases List.mem_filterMap.mp h with ⟨d, hd, hmatch⟩
  cases d with
  | empty => exact absurd hmatch (by simp)
  | table rows' =>
    exact (Option.some.inj hmatch) ▸ hd

theorem combine_hourly_city {a f : Option RawPayload} {city : String}
    {out : List HourlyRow}
    (hok : combine_hourly a f city = .ok out) :
    ∀ r ∈ out, r.city = city := by
  rcases combine_hourly_ok_inv hok with rfl | ⟨dfs, hdfs, rfl⟩
  · intro r hr
    exact absurd hr (List.not_mem_nil _)
  · intro r hr
    rw [List.mem_insertionSort] at hr
    have hr' := mem_of_mem_dropDupFirst _ _ _ hr
    rcases List.mem_flatten.mp hr' with ⟨rows, hrows, hrrows⟩
    rcases hdfs _ (mem_tablesOf hrows) with ⟨p, hp⟩
    exact hourlyToDf_city hp r hrrows

theorem combine_hourly_keys_nodup {a f : Option RawPayload} {city : String}
    {out : List HourlyRow}
    (hok : combine_hourly a f city = .ok out) :
    (out.map rowKey).Nodup := by
  rcases combine_hourly_ok_inv hok with rfl | ⟨dfs, _, rfl⟩
  · exact List.nodup_nil
  · have hperm :
        List.Perm
          ((List.insertionSort timeLe
              (dropDupFirst (tablesOf dfs).flatten [])).map rowKey)
          ((dropDupFirst (tablesOf dfs).flatten []).map rowKey) :=
      (List.perm_insertionSort timeLe _).map rowKey
    exact hperm.nodup_iff.mpr (nodup_keys_dropDupFirst _ _)

theorem combine_hourly_sorted {a f : Option RawPayload} {city : String}
    {out : List HourlyRow}
    (hok : combine_hourly a f city = .ok out) :
    out.Sorted timeLe := by
  rcases combine_hourly_ok_inv hok with rfl | ⟨dfs, _, rfl⟩
  · exact List.sorted_nil
  · exact List.sorted_insertionSort timeLe _

theorem mergeAllHourly_sorted (tables : List (List HourlyRow)) :
    (mergeAllHourly tables).Sorted cityTimeLe :=
  List.sorted_insertionSort cityTimeLe _

theorem mergeAllHourly_perm (tables : List (List HourlyRow)) :
    List.Perm (mergeAllHourly tables) tables.flatten :=
  List.perm_insertionSort cityTimeLe _

/-!  ### Lemmas about `run_pipeline`  -/

theorem run_pipeline_hourly_eq {tasks : List LocTask}
    {start stop dataDir : String} {H : List HourlyRow}
    (h : (run_pipeline tasks start stop dataDir).hourly = some H) :
    H = mergeAllHourly (allHourlyOf tasks) := by
  simp only [run_pipeline] at h
  split at h
  · exact Option.noConfusion h
  · split at h
    · exact Option.noConfusion h
    · exact (Option.some.inj h).symm

theorem workerResult_ok_some {t : LocTask} {rows : List HourlyRow}
    (h : workerResult t = .ok (some rows)) :
    ∃ a f, t.outcome = .ok a f ∧
      combine_hourly a f t.loc.name = .ok rows ∧ rows ≠ [] := by
  unfold workerResult at h
  cases ht : t.outcome with
  | fail =>
    rw [ht] at h
    exact Except.noConfusion h
  | ok a f =>
    simp only [ht] at h
    cases hc : combine_hourly a f t.loc.name with
    | error e =>
      simp only [hc] at h
      exact Except.noConfusion h
    | ok hourly =>
      simp only [hc] at h
      by_cases he : hourly.isEmpty
      · rw [if_pos he] at h
        exact Option.noConfusion (Except.ok.inj h)
      · rw [if_neg he] at h
        have : hourly = rows := Option.some.inj (Except.ok.inj h)
        subst this
        exact ⟨a, f, rfl, hc, by simpa using he⟩

/-- A per-location table paired with its city label: unique dedup keys and a
constant city column. -/
def GoodTable (rows : List HourlyRow) (c : String) : Prop :=
  (rows.map rowKey).Nodup ∧ ∀ r ∈ rows, r.city = c

theorem city_mem_of_mem_flatten {tables : List (List HourlyRow)}
    {cs : List String} (hf : List.Forall₂ GoodTable tables cs) :
    ∀ r ∈ tables.flatten, r.city ∈ cs := by
  induction hf with
  | nil =>
    intro r hr
    exact absurd hr (List.not_mem_nil _)
  | cons h _ ih =>
    intro r hr
    rw [List.flatten_cons] at hr
    rcases List.mem_append.mp hr with h1 | h1
    · rw [h.2 r h1]
      exact List.mem_cons_self _ _
    · exact List.mem_cons_of_mem _ (ih r h1)

theorem nodup_keys_flatten {tables : List (List HourlyRow)}
    {cs : List String} (hf : List.Forall₂ GoodTable tables cs)
    (hcs : cs.Nodup) : ((tables.flatten).map rowKey).Nodup := by
  induction hf with
  | nil => exact List.nodup_nil
  | cons h hrest ih =>
    rw [List.flatten_cons, List.map_append]
    rcases List.nodup_cons.mp hcs with ⟨hb, hcs'⟩
    refine List.Nodup.append h.1 (ih hcs') ?_
    intro k hk1 hk2
    rcases List.mem_map.mp hk1 with ⟨r1, hr1, hkey1⟩
    rcases List.mem_map.mp hk2 with ⟨r2, hr2, hkey2⟩
    have hc1 := h.2 r1 hr1
    have hc2 := city_mem_of_mem_flatten hrest r2 hr2
    have hceq : r1.city = r2.city :=
      congrArg Prod.fst (hkey1.trans hkey2.symm)
    apply hb
    rw [hc1] at hceq
    rw [hceq]
    exact hc2

/-- The names of the tasks that contributed a non-empty table, in order. -/
def succeededNames (tasks : List LocTask) : List String :=
  tasks.filterMap fun t =>
    match workerResult t with
    | .ok (some _) => some t.loc.name
    | _ => none

theorem succeededNames_sublist (tasks : List LocTask) :
    (succeededNames tasks).Sublist (tasks.map fun t => t.loc.name) := by
  induction tasks with
  | nil => exact List.Sublist.refl _
  | cons t ts ih =>
    unfold succeededNames at ih ⊢
    rw [List.filterMap_cons, List.map_cons]
    cases hw : workerResult t with
    | error e => exact ih.cons _
    | ok o =>
      cases o with
      | none => exact ih.cons _
      | some rows => exact ih.cons₂ _

theorem forall2_allHourly (tasks : List LocTask) :
    List.Forall₂ GoodTable (allHourlyOf tasks) (succeededNames tasks) := by
  induction tasks with
  | nil => exact List.Forall₂.nil
  | cons t ts ih =>
    unfold allHourlyOf succeededNames at ih ⊢
    rw [List.map_cons, List.filterMap_cons, List.filterMap_cons]
    cases hw : workerResult t with
    | error e => exact ih
    | ok o =>
      cases o with
      | none => exact ih
      | some rows =>
        refine List.Forall₂.cons ?_ ih
        rcases workerResult_ok_some hw with ⟨a, f, _, hc, _⟩
        exact ⟨combine_hourly_keys_nodup hc, combine_hourly_city hc⟩

theorem run_pipeline_nodup_keys {tasks : List LocTask}
    {start stop dataDir : String} {H : List HourlyRow}
    (hnames : (tasks.map fun t => t.loc.name).Nodup)
    (h : (run_pipeline tasks start stop dataDir).hourly = some H) :
    (H.map rowKey).Nodup := by
  rw [run_pipeline_hourly_eq h]
  have hperm :
      List.Perm ((mergeAllHourly (allHourlyOf tasks)).map rowKey)
        (((allHourlyOf tasks).flatten).map rowKey) :=
    (mergeAllHourly_perm _).map rowKey
  refine hperm.nodup_iff.mpr ?_
  exact nodup_keys_flatten (forall2_allHourly tasks)
    ((succeededNames_sublist tasks).nodup hnames)

/-!  ### Lemmas about `summarize_daily`  -/

theorem countP_eq_one_of_nodup_mem {α : Type} [DecidableEq α] {l : List α}
    {a : α} (hn : l.Nodup) (hm : a ∈ l) :
    l.countP (fun x => decide (x = a)) = 1 := by
  induction l with
  | nil => cases hm
  | cons b bs ih =>
    rw [List.countP_cons]
    rcases List.nodup_cons.mp hn with ⟨hb, hbs⟩
    rcases List.mem_cons.mp hm with rfl | hm'
    · have hz : bs.countP (fun x => decide (x = a)) = 0 := by
        rw [List.countP_eq_zero]
        intro x hx
        simp only [decide_eq_true_eq]
        intro he
        exact hb (he ▸ hx)
      simp [hz]
    · have hne : b ≠ a := fun he => hb (he ▸ hm')
      rw [ih hbs hm']
      simp [hne]

theorem mem_groupKeys {df : List HourlyRow} {k : String × Nat} :
    k ∈ groupKeys df ↔ ∃ r ∈ df, groupKey r = some k := by
  unfold groupKeys
  rw [List.mem_dedup, List.mem_filterMap]

theorem summarize_daily_eq {df : List HourlyRow} (h : df ≠ []) :
    summarize_daily df =
      (List.insertionSort keyLe (groupKeys df)).map fun k =>
        mkDailyRow k (groupRows df k) := by
  unfold summarize_daily
  rw [if_neg]
  simp [List.isEmpty_iff, h]

theorem nodup_sorted_groupKeys (df : List HourlyRow) :
    (List.insertionSort keyLe (groupKeys df)).Nodup :=
  (List.perm_insertionSort keyLe _).nodup_iff.mpr (List.nodup_dedup _)

/-- Hourly row used by the aggregation example of the spec: city `"X"`,
a concrete UTC time, a temperature cell, all other measurements null. -/
def c5Row (t : Nat) (temp : Option ℚ) : HourlyRow :=
  { time := some t, city := "X", temperature_2m := temp }

/-- The spec's aggregation example: one city/date group whose hourly
temperatures are `[10.0, 20.0, null, 30.0]`. -/
def c5Df : List HourlyRow :=
  [c5Row 0 (some 10), c5Row 60 (some 20), c5Row 120 none, c5Row 180 (some 30)]

/-- C5: `summarize_daily` aggregates each `(city, UTC date)` group with
skip-null semantics — mean/min/max of temperature, mean of
humidity/windspeed/cloudcover/pressure and sum of precipitation/rain/snowfall
range over the non-null cells of the group only — and the group with
temperatures `[10.0, 20.0, null, 30.0]` yields mean `20.0`, min `10.0`,
max `30.0`. -/
theorem summarize_daily_group_correct :
    (∀ (df : List HourlyRow) (c : String) (d : Nat) (grp : List HourlyRow),
      grp = df.filter (fun r => groupKey r == some (c, d)) →
      grp ≠ [] →
      (summarize_daily df).countP (fun x => decide (x.city = c ∧ x.date = d)) = 1 ∧
      ∀ x ∈ summarize_daily df, x.city = c → x.date = d →
        x.temperature_2m_mean =
          (if (nonNull (grp.map (·.temperature_2m))).isEmpty then none
           else some ((nonNull (grp.map (·.temperature_2m))).sum /
             (nonNull (grp.map (·.temperature_2m))).length)) ∧
        x.temperature_2m_min = (nonNull (grp.map (·.temperature_2m))).min? ∧
        x.temperature_2m_max = (nonNull (grp.map (·.temperature_2m))).max? ∧
        x.relative_humidity_2m_mean = aggMean (grp.map (·.relative_humidity_2m)) ∧
        x.precipitation_sum = (nonNull (grp.map (·.precipitation))).sum ∧
        x.rain_sum = (nonNull (grp.map (·.rain))).sum ∧
        x.snowfall_sum = (nonNull (grp.map (·.snowfall))).sum ∧
        x.windspeed_10m_mean = aggMean (grp.map (·.windspeed_10m)) ∧
        x.cloudcover_mean = aggMean (grp.map (·.cloudcover)) ∧
        x.pressure_msl_mean = aggMean (grp.map (·.pressure_msl))) ∧
    (summarize_daily c5Df).map
        (fun x => (x.city, x.date, x.temperature_2m_mean, x.temperature_2m_min,
          x.temperature_2m_max)) =
      [("X", 0, some 20, some 10, some 30)] := by
  constructor
  · intro df c d grp hgrp hne
    rcases List.exists_mem_of_ne_nil _ hne with ⟨r0, hr0⟩
    rw [hgrp] at hr0
    rcases List.mem_filter.mp hr0 with ⟨hr0df, hr0key⟩
    have hgk : groupKey r0 = some (c, d) := eq_of_beq hr0key
    have hdf : df ≠ [] := List.ne_nil_of_mem hr0df
    have hsum := summarize_daily_eq hdf
    have hkmem : (c, d) ∈ List.insertionSort keyLe (groupKeys df) := by
      rw [List.mem_insertionSort]
      exact mem_groupKeys.mpr ⟨r0, hr0df, hgk⟩
    constructor
    · rw [hsum, List.countP_map]
      have hcongr :
          (List.insertionSort keyLe (groupKeys df)).countP
              ((fun x : DailyRow => decide (x.city = c ∧ x.date = d)) ∘
                fun k => mkDailyRow k (groupRows df k)) =
            (List.insertionSort keyLe (groupKeys df)).countP
              (fun k => decide (k = (c, d))) := by
        apply List.countP_congr
        intro k _
        simp only [Function.comp, decide_eq_true_eq]
        constructor
        · intro h
          exact Prod.ext h.1 h.2
        · intro h
          exact ⟨congrArg Prod.fst h, congrArg Prod.snd h⟩
      rw [hcongr]
      exact countP_eq_one_of_nodup_mem (nodup_sorted_groupKeys df) hkmem
    · intro x hx hxc hxd
      rw [hsum] at hx
      rcases List.mem_map.mp hx with ⟨k, _, hfk⟩
      have hk1 : k.1 = c := by rw [← hxc, ← hfk]; rfl
      have hk2 : k.2 = d := by rw [← hxd, ← hfk]; rfl
      have hkeq : k = (c, d) := Prod.ext hk1 hk2
      rw [← hfk, hkeq]
      subst hgrp
      exact ⟨rfl, rfl, rfl, rfl, rfl, rfl, rfl, rfl, rfl, rfl⟩
  · have hkeys : List.insertionSort keyLe (groupKeys c5Df) = [("X", 0)] := by
      decide
    have hrows : groupRows c5Df ("X", 0) = c5Df := by decide
    rw [summarize_daily_eq (by decide), hkeys, List.map_cons, List.map_nil,
      List.map_cons, List.map_nil, hrows]
    norm_num [mkDailyRow, aggMean, aggMin, aggMax, nonNull, c5Df, c5Row,
      List.min?, List.max?, List.foldl, min_def, max_def,
      List.filterMap_cons, List.filterMap_nil, id]

/-- C5 witness: the spec's example group is non-empty and `summarize_daily`
emits exactly one row for it. -/
theorem summarize_daily_group_correct_witness :
    (summarize_daily c5Df).countP
      (fun x => decide (x.city = "X" ∧ x.date = 0)) = 1 :=
  (summarize_daily_group_correct.1 c5Df "X" 0
    (c5Df.filter (fun r => groupKey r == some ("X", 0))) rfl (by decide)).1

/-!  ### C1: dedup inside `combine_hourly`, archive row wins  -/

/-- C1: for payloads whose hourly blocks both contain a row with the same
`(city, time)` key, `combine_hourly` keeps exactly one row for that key,
namely the first-seen one under the fixed archive-before-forecast
concatenation order: whenever the key occurs in the archive table, the
surviving row is the first archive row with that key. -/
theorem combine_hourly_dedup_first
    (a f : RawPayload) (city : String) (out rowsA rowsF : List HourlyRow)
    (t : Option Nat)
    (hA : hourlyToDf a city = .ok (.table rowsA))
    (hF : hourlyToDf f city = .ok (.table rowsF))
    (hc : combine_hourly (some a) (some f) city = .ok out)
    (hinA : ∃ r ∈ rowsA, r.time = t)
    (_hinF : ∃ r ∈ rowsF, r.time = t) :
    out.countP (fun r => rowKey r == (city, t)) = 1 ∧
    ∀ r ∈ out, rowKey r = (city, t) →
      rowsA.find? (fun x => rowKey x == (city, t)) = some r := by
  simp only [combine_hourly, hA, hF] at hc
  have hout : out =
      List.insertionSort timeLe (dropDupFirst (rowsA ++ rowsF) []) := by
    have h1 := finishCombine_ok hc
    simpa [tablesOf, List.flatten] using h1
  rcases hinA with ⟨ra, hra, hrat⟩
  have hraKey : rowKey ra = (city, t) := by
    unfold rowKey
    rw [hourlyToDf_city hA ra hra, hrat]
  have hexA : ∃ x ∈ rowsA, (rowKey x == (city, t)) = true :=
    ⟨ra, hra, beq_iff_eq.mpr hraKey⟩
  constructor
  · have hperm :
        List.Perm (List.insertionSort timeLe (dropDupFirst (rowsA ++ rowsF) []))
          (dropDupFirst (rowsA ++ rowsF) []) :=
      List.perm_insertionSort timeLe _
    rw [hout, hperm.countP_eq]
    rw [countP_dropDupFirst_of_not_mem (city, t) (rowsA ++ rowsF) []
      (List.not_mem_nil _)]
    have hany : (rowsA ++ rowsF).any (fun r => rowKey r == (city, t)) = true := by
      rw [List.any_eq_true]
      exact ⟨ra, List.mem_append_left _ hra, beq_iff_eq.mpr hraKey⟩
    rw [hany]
    rfl
  · intro r hr hkey
    rw [hout, List.mem_insertionSort] at hr
    have hfind := find?_of_mem_dropDupFirst (rowsA ++ rowsF) [] r hr
    rw [hkey] at hfind
    exact find?_append_of_exists _ rowsA rowsF r hexA hfind

/-- Archive payload of the C1 witness: one hourly row at time 0 with
temperature 10. -/
def c1ArchiveRaw : RawPayload :=
  .withHourly { timeKey := some [some 0], values := [("temperature_2m", [some 10])] }

/-- Forecast payload of the C1 witness: the same `(city, time)` key with a
different temperature. -/
def c1ForecastRaw : RawPayload :=
  .withHourly { timeKey := some [some 0], values := [("temperature_2m", [some 99])] }

/-- The archive row of the C1 witness. -/
def c1RowA : HourlyRow := { time := some 0, city := "X", temperature_2m := some 10 }

/-- The forecast row of the C1 witness. -/
def c1RowF : HourlyRow := { time := some 0, city := "X", temperature_2m := some 99 }

/-- C1 witness: on concrete overlapping archive/forecast payloads the
combined table keeps exactly one row for the shared key. -/
theorem combine_hourly_dedup_first_witness :
    ([c1RowA].countP (fun r => rowKey r == ("X", some 0))) = 1 :=
  (combine_hourly_dedup_first c1ArchiveRaw c1ForecastRaw "X" [c1RowA]
    [c1RowA] [c1RowF] (some 0) rfl rfl rfl
    ⟨c1RowA, by decide, rfl⟩ ⟨c1RowF, by decide, rfl⟩).1

/-- Evaluation helper: when no worker failed and some table is non-empty,
the persisted hourly table is the sorted concatenation of the per-location
tables. -/
theorem run_pipeline_hourly_flatten {tasks : List LocTask}
    {start stop dataDir : String} {H : List HourlyRow}
    (herr : anyWorkerError tasks = false)
    (hne : (allHourlyOf tasks).isEmpty = false)
    (hfl : (allHourlyOf tasks).flatten = H)
    (hs : H.Sorted cityTimeLe) :
    (run_pipeline tasks start stop dataDir).hourly = some H := by
  simp only [run_pipeline]
  rw [if_neg (by simp [herr]), if_neg (by simp [hne])]
  unfold mergeAllHourly
  rw [hfl, hs.insertionSort_eq]

/-!  ### C2: sort invariants  -/

/-- C2: `combine_hourly` output is time-sorted (city is constant inside a
per-location table), and the pipeline-level hourly table is sorted by
`(city, time)` lexicographically ascending before it is persisted. -/
theorem sort_invariant :
    (∀ (a f : Option RawPayload) (city : String) (out : List HourlyRow),
      combine_hourly a f city = .ok out → out.Sorted timeLe) ∧
    (∀ (tasks : List LocTask) (start stop dataDir : String)
      (H : List HourlyRow),
      (run_pipeline tasks start stop dataDir).hourly = some H →
      H.Sorted cityTimeLe) := by
  constructor
  · intro a f city out hok
    exact combine_hourly_sorted hok
  · intro tasks start stop dataDir H h
    rw [run_pipeline_hourly_eq h]
    exact mergeAllHourly_sorted _

/-- Payload of the C2 witness: two parse-able times given in reverse order. -/
def c2Raw : RawPayload :=
  .withHourly { timeKey := some [some 60, some 0], values := [] }

/-- Task of the C2 witness. -/
def c2Task : LocTask :=
  { loc := { name := "X" }, outcome := .ok (some c2Raw) none }

/-- The sorted hourly table of the C2 witness. -/
def c2Out : List HourlyRow :=
  [{ time := some 0, city := "X" }, { time := some 60, city := "X" }]

theorem c2Out_sorted : c2Out.Sorted cityTimeLe := by
  rw [c2Out, List.sorted_cons]
  constructor
  · intro b hb
    rcases List.mem_singleton.mp hb with rfl
    exact Or.inr ⟨rfl, by decide⟩
  · exact List.sorted_singleton _

theorem c2_pipeline_hourly :
    (run_pipeline [c2Task] "s" "e" "d").hourly = some c2Out :=
  run_pipeline_hourly_flatten (by decide) (by decide) (by decide) c2Out_sorted

/-- C2 witness: a concrete combine output is time-sorted and a concrete
pipeline hourly table is `(city, time)`-sorted. -/
theorem sort_invariant_witness :
    c2Out.Sorted timeLe ∧ c2Out.Sorted cityTimeLe :=
  ⟨sort_invariant.1 (some c2Raw) none "X" c2Out rfl,
   sort_invariant.2 [c2Task] "s" "e" "d" c2Out c2_pipeline_hourly⟩

/-!  ### C10: where deduplication happens  -/

/-- Task named `"X"` contributing the key `("X", 0)`. -/
def c10TaskA : LocTask :=
  { loc := { name := "X" },
    outcome := .ok (some (.withHourly { timeKey := some [some 0] })) none }

/-- A second task also named `"X"` contributing the same key `("X", 0)`. -/
def c10TaskB : LocTask :=
  { loc := { name := "X" },
    outcome := .ok (some (.withHourly { timeKey := some [some 0] })) none }

/-- A task named `"X"` contributing the disjoint key `("X", 1440)`. -/
def c10TaskC : LocTask :=
  { loc := { name := "X" },
    outcome := .ok (some (.withHourly { timeKey := some [some 1440] })) none }

/-- The duplicated hourly table produced by running `c10TaskA, c10TaskB`. -/
def c10DupH : List HourlyRow :=
  [{ time := some 0, city := "X" }, { time := some 0, city := "X" }]

/-- The hourly table produced by running `c10TaskA, c10TaskC`. -/
def c10DisjH : List HourlyRow :=
  [{ time := some 0, city := "X" }, { time := some 1440, city := "X" }]

/-- C10 (amended): dedup happens only inside the per-location combine — the
pipeline-level merge is a pure concatenate-and-sort (a permutation of the
concatenation); if the configured location names are pairwise distinct the
canonical hourly table has unique `(city, time)` keys; and with duplicated
location names uniqueness can fail, as a concrete duplicated-name run
shows. -/
theorem dedup_scope :
    (∀ tables : List (List HourlyRow),
      List.Perm (mergeAllHourly tables) tables.flatten) ∧
    (∀ (tasks : List LocTask) (start stop dataDir : String)
      (H : List HourlyRow),
      ((tasks.map fun t => t.loc.name).Nodup) →
      (run_pipeline tasks start stop dataDir).hourly = some H →
      (H.map rowKey).Nodup) ∧
    ((run_pipeline [c10TaskA, c10TaskB] "s" "e" "d").hourly = some c10DupH ∧
      ¬(c10DupH.map rowKey).Nodup) := by
  have hdup : (run_pipeline [c10TaskA, c10TaskB] "s" "e" "d").hourly =
      some c10DupH := by
    refine run_pipeline_hourly_flatten (by decide) (by decide) (by decide) ?_
    rw [c10DupH, List.sorted_cons]
    constructor
    · intro b hb
      rcases List.mem_singleton.mp hb with rfl
      exact Or.inr ⟨rfl, le_refl _⟩
    · exact List.sorted_singleton _
  refine ⟨mergeAllHourly_perm, ?_, hdup, by decide⟩
  intro tasks start stop dataDir H hnames h
  exact run_pipeline_nodup_keys hnames h

/-- C10 counterexample: a run whose two per-location tables carry the same
city label `"X"` (duplicate configured names) yet whose canonical hourly
table still has unique `(city, time)` keys, because the two tables cover
disjoint times — refuting "unique keys if and only if no two per-location
tables carry the same city label" at this concrete run. -/
theorem dedup_scope_cex :
    (run_pipeline [c10TaskA, c10TaskC] "s" "e" "d").hourly = some c10DisjH ∧
    (c10DisjH.map rowKey).Nodup ∧
    ¬(([c10TaskA, c10TaskC].map fun t => t.loc.name).Nodup) := by
  refine ⟨?_, by decide, by decide⟩
  refine run_pipeline_hourly_flatten (by decide) (by decide) (by decide) ?_
  rw [c10DisjH, List.sorted_cons]
  constructor
  · intro b hb
    rcases List.mem_singleton.mp hb with rfl
    exact Or.inr ⟨rfl, by decide⟩
  · exact List.sorted_singleton _

/-- C10 witness: a concrete distinct-names run has unique keys. -/
theorem dedup_scope_witness :
    (([{ time := some 0, city := "X" }] : List HourlyRow).map rowKey).Nodup :=
  dedup_scope.2.1 [c10TaskA] "s" "e" "d" _ (by decide) (by decide)

/-!  ### C6: all-fail abort  -/

/-- Whether one location's task ended with no usable table: a fetch/combine
exception or an empty (`None`) result. -/
def isEmptyOrFailed (t : LocTask) : Bool :=
  match workerResult t with
  | .ok (some _) => false
  | _ => true

theorem run_pipeline_abort {tasks : List LocTask}
    {start stop dataDir : String}
    (hempty : (allHourlyOf tasks).isEmpty = true) :
    run_pipeline tasks start stop dataDir =
      { exitCode := 1,
        writes := (tasks.map fun t =>
          workerWrites (dataDir ++ "/raw") t start stop).flatten,
        hourly := none, daily := none } := by
  simp only [run_pipeline]
  by_cases he : anyWorkerError tasks
  · rw [if_pos he]
  · rw [if_neg he, if_pos hempty]

/-- C6: when every configured location's fetch yields an empty or failed
result, the pipeline exits non-zero and the only writes that may have
happened are raw-payload files — no hourly or daily table reaches the
persistence sink. -/
theorem all_fail_abort :
    ∀ (tasks : List LocTask) (start stop dataDir : String),
      (∀ t ∈ tasks, isEmptyOrFailed t = true) →
      (run_pipeline tasks start stop dataDir).exitCode ≠ 0 ∧
      (run_pipeline tasks start stop dataDir).hourly = none ∧
      (run_pipeline tasks start stop dataDir).daily = none ∧
      ∀ w ∈ (run_pipeline tasks start stop dataDir).writes,
        ∃ p, w = .rawJson p := by
  intro tasks start stop dataDir hall
  have hempty : (allHourlyOf tasks).isEmpty = true := by
    rw [List.isEmpty_iff]
    unfold allHourlyOf
    rw [List.filterMap_eq_nil_iff]
    intro r hr
    rcases List.mem_map.mp hr with ⟨t, ht, rfl⟩
    cases hw : workerResult t with
    | error e => rfl
    | ok o =>
      cases o with
      | none => rfl
      | some rows =>
        have := hall t ht
        unfold isEmptyOrFailed at this
        rw [hw] at this
        exact Bool.noConfusion this
  rw [run_pipeline_abort hempty]
  refine ⟨one_ne_zero, rfl, rfl, ?_⟩
  intro w hw
  rcases List.mem_flatten.mp hw with ⟨ws, hws, hwmem⟩
  rcases List.mem_map.mp hws with ⟨t, _, rfl⟩
  unfold workerWrites at hwmem
  cases ht : t.outcome with
  | fail =>
    simp only [ht] at hwmem
    exact absurd hwmem (List.not_mem_nil _)
  | ok a f =>
    simp only [ht] at hwmem
    rcases List.mem_cons.mp hwmem with rfl | h1
    · exact ⟨_, rfl⟩
    · rcases List.mem_singleton.mp h1 with rfl
      exact ⟨_, rfl⟩

/-- Tasks of the C6 witness: one location whose fetch failed and one whose
payloads were both falsy (empty result). -/
def c6Tasks : List LocTask :=
  [{ loc := { name := "A" }, outcome := .fail },
   { loc := { name := "B" }, outcome := .ok none none }]

/-- C6 witness: the all-fail run exits non-zero. -/
theorem all_fail_abort_witness :
    (run_pipeline c6Tasks "s" "e" "d").exitCode ≠ 0 :=
  (all_fail_abort c6Tasks "s" "e" "d" (by decide)).1

/-!  ### C7: normalization safety  -/

/-- C7 (amended): normalization of an hourly block never fails *provided
every value array has the same length as the time array*: a missing or
empty hourly block yields the empty frame (zero rows), and otherwise each
row carries the parse result of its time entry — an unparseable entry
becomes the null marker `none` in that row, not an error — and the city
label column.  (The unamended never-raises claim is refuted by
`normalize_no_raise_cex`.) -/
theorem normalize_no_raise :
    (∀ city, hourlyToDf .noHourly city = .ok .empty) ∧
    (∀ (h : RawHourly) (city : String),
      (∀ kv ∈ h.values, kv.2.length = (h.timeKey.getD []).length) →
      ∃ rows, hourlyToDf (.withHourly h) city = .ok (.table rows) ∧
        rows.length = (h.timeKey.getD []).length ∧
        ∀ i (hi : i < rows.length),
          (rows.get ⟨i, hi⟩).time = ((h.timeKey.getD []).get? i).getD none ∧
          (rows.get ⟨i, hi⟩).city = city) := by
  constructor
  · intro city
    rfl
  · intro h city hlen
    refine ⟨(List.range (h.timeKey.getD []).length).map
      (mkHourlyRow h city (h.timeKey.getD [])), ?_, by simp, ?_⟩
    · simp only [hourlyToDf]
      rw [if_pos]
      rw [List.all_eq_true]
      intro kv hkv
      exact beq_iff_eq.mpr (hlen kv hkv)
    · intro i hi
      constructor
      · simp [mkHourlyRow, List.get_eq_getElem]
      · simp [mkHourlyRow, List.get_eq_getElem]

/-- A raw payload whose `temperature_2m` array is shorter than its `time`
array. -/
def c7Bad : RawPayload :=
  .withHourly { timeKey := some [some 0], values := [("temperature_2m", [])] }

/-- C7 counterexample: normalization *does* fail on a JSON-shaped input —
a ragged hourly block (value array shorter than the time array) makes the
pandas column assignment raise, refuting "never raises for any JSON-shaped
input". -/
theorem normalize_no_raise_cex :
    hourlyToDf c7Bad "X" =
      .error "Length of values does not match length of index" := rfl

/-- A well-formed hourly block with one unparseable time entry. -/
def c7Good : RawHourly :=
  { timeKey := some [some 5, none], values := [("temperature_2m", [some 1, none])] }

/-- C7 witness: the amended theorem applied to a concrete block whose
second time entry is unparseable. -/
theorem normalize_no_raise_witness :
    ∃ rows, hourlyToDf (.withHourly c7Good) "Y" = .ok (.table rows) ∧
      rows.length = (c7Good.timeKey.getD []).length ∧
      ∀ i (hi : i < rows.length),
        (rows.get ⟨i, hi⟩).time = ((c7Good.timeKey.getD []).get? i).getD none ∧
        (rows.get ⟨i, hi⟩).city = "Y" :=
  normalize_no_raise.2 c7Good "Y" (by decide)

/-!  ### C8: daily summary schema  -/

/-- C8 (amended): every daily row consists of the `city` and `date` group
columns plus exactly **10** aggregate numeric columns (not 11), each named
`<field>_<aggregate>` for an entry of `agg_map`, with the suffix kept on
single-aggregate fields (`relative_humidity_2m_mean`, `precipitation_sum`,
...). -/
theorem daily_schema :
    (∀ (df : List HourlyRow) (r : DailyRow), r ∈ summarize_daily df →
      (dailyRowCells r).map Prod.fst = dailyAggColumns) ∧
    dailyAggColumns.length = 10 ∧
    dailyColumns = ["city", "date"] ++ dailyAggColumns ∧
    (∀ c ∈ dailyAggColumns, ∃ fa ∈ agg_map, ∃ ag ∈ fa.2,
      c = fa.1 ++ "_" ++ ag) ∧
    "relative_humidity_2m_mean" ∈ dailyAggColumns ∧
    "precipitation_sum" ∈ dailyAggColumns := by
  refine ⟨?_, by decide, rfl, by decide, by decide, by decide⟩
  intro df r _
  rfl

/-- Hourly row of the C8 example table. -/
def c8Row : HourlyRow := { time := some 0, city := "X" }

/-- C8 counterexample: on a concrete non-empty hourly table the daily table
has 10 aggregate columns per row, not the 11 the claim states. -/
theorem daily_schema_cex :
    ((summarize_daily [c8Row]).map fun r => (dailyRowCells r).length) = [10] ∧
    (10 : Nat) ≠ 11 := by
  constructor
  · decide
  · decide

/-- C8 witness: the amended schema fact applied to a concrete daily row. -/
theorem daily_schema_witness :
    (dailyRowCells (mkDailyRow ("X", 0) (groupRows [c8Row] ("X", 0)))).map
      Prod.fst = dailyAggColumns :=
  daily_schema.1 [c8Row] _ (by decide)

/-!  ### C9: raw payload file names  -/

/-- C9 (amended): raw file paths are a deterministic function of their
inputs, built from the lower-cased space-to-underscore location name and
the kind — but the date window is part of the name whenever both `start`
and `end` are truthy, for *both* payload kinds: `_worker_fetch_city` passes
the archive window to the forecast `save_raw_json` call as well. -/
theorem raw_filename :
    (∀ (rawDir city kind s e : String), s ≠ "" → e ≠ "" →
      save_raw_json_path rawDir city kind (some s) (some e) =
        rawDir ++ "/" ++ (safeCity city ++ "__" ++ kind ++ "__" ++ s ++
          "__" ++ e ++ ".json")) ∧
    (∀ (rawDir s e : String) (t : LocTask) (a f : Option RawPayload),
      t.outcome = .ok a f →
      workerWrites rawDir t s e =
        [.rawJson (save_raw_json_path rawDir t.loc.name "archive"
            (some s) (some e)),
         .rawJson (save_raw_json_path rawDir t.loc.name "forecast"
            (some s) (some e))]) := by
  constructor
  · intro rawDir city kind s e hs he
    have hc : (truthyStr (some s) && truthyStr (some e)) = true := by
      simp only [truthyStr, Bool.and_eq_true, Bool.not_eq_true']
      exact ⟨beq_eq_false_iff_ne.mpr hs, beq_eq_false_iff_ne.mpr he⟩
    unfold save_raw_json_path
    rw [if_pos hc]
    rfl
  · intro rawDir s e t a f ht
    simp only [workerWrites, ht]

/-- C9 witness: the amended path formula at concrete inputs. -/
theorem raw_filename_witness :
    save_raw_json_path "raw" "New York" "archive"
        (some "2024-10-01") (some "2024-10-02") =
      "raw" ++ "/" ++ (safeCity "New York" ++ "__" ++ "archive" ++ "__" ++
        "2024-10-01" ++ "__" ++ "2024-10-02" ++ ".json") :=
  raw_filename.1 "raw" "New York" "archive" "2024-10-01" "2024-10-02"
    (by decide) (by decide)

/-- C9 counterexample: the forecast payload's file name *does* contain the
date window (the claim says the window appears for archive payloads only). -/
theorem raw_filename_cex :
    save_raw_json_path "raw" "New York" "forecast"
        (some "2024-10-01") (some "2024-10-02") =
      "raw/new_york__forecast__2024-10-01__2024-10-02.json" ∧
    save_raw_json_path "raw" "New York" "forecast"
        (some "2024-10-01") (some "2024-10-02") ≠
      "raw/new_york__forecast.json" := by
  constructor
  · decide
  · decide

/-!  ### C3 / C4: the HTTP client  -/

theorem transportGet_step {resp : Nat → HttpResp} {k : Nat} (n : Nat)
    (hk : (resp k).status = 429) :
    transportGet resp (n + 1) k = transportGet resp n (k + 1) := by
  nth_rewrite 1 [transportGet.eq_def]
  rw [hk]
  simp [statusForcelist]

theorem transportGet_done {resp : Nat → HttpResp} {k : Nat} (n : Nat)
    (hk : (resp k).status ∉ statusForcelist) :
    transportGet resp n k = (resp k, k + 1) := by
  nth_rewrite 1 [transportGet.eq_def]
  rw [if_neg hk]

theorem status_not_forcelist {s : Nat} (h500 : s < 500) (h429 : s ≠ 429) :
    s ∉ statusForcelist := by
  intro hmem
  simp only [statusForcelist, List.mem_cons, List.not_mem_nil, or_false] at hmem
  omega

theorem getJsonFrom_success (resp : Nat → HttpResp) (k rem : Nat)
    (r : HttpResp) (next : Nat)
    (ht : transportGet resp transportRetries k = (r, next))
    (h1 : (r.status == 429) = false) (h2 : r.status < 400) :
    getJsonFrom resp k (rem + 1) = (.ok r.body, next) := by
  nth_rewrite 1 [getJsonFrom.eq_def]
  simp [ht, h1, h2]

theorem getJsonFrom_err_step (resp : Nat → HttpResp) (k m : Nat)
    (r : HttpResp) (next : Nat)
    (ht : transportGet resp transportRetries k = (r, next))
    (h1 : (r.status == 429) = false) (h2 : ¬r.status < 400) :
    getJsonFrom resp k (m + 1 + 1) = getJsonFrom resp next (m + 1) := by
  nth_rewrite 1 [getJsonFrom.eq_def]
  simp [ht, h1, h2]

theorem getJsonFrom_err_last (resp : Nat → HttpResp) (k : Nat)
    (r : HttpResp) (next : Nat)
    (ht : transportGet resp transportRetries k = (r, next))
    (h1 : (r.status == 429) = false) (h2 : ¬r.status < 400) :
    getJsonFrom resp k 1 = (.error r.status, next) := by
  show getJsonFrom resp k (0 + 1) = _
  nth_rewrite 1 [getJsonFrom.eq_def]
  simp [ht, h1, h2]

/-- C3 (amended): a non-retryable HTTP error status (4xx other than 429) is
*not* propagated after the single response — the outer loop of `_get_json`
catches the `HTTPError` and retries, issuing one request per outer attempt,
and the error is raised only after the 7th attempt, for a total of 7
requests. -/
theorem non_retryable_retried (resp : Nat → HttpResp) (s : Nat)
    (hs : ∀ k, (resp k).status = s) (h400 : 400 ≤ s) (h500 : s < 500)
    (h429 : s ≠ 429) :
    get_json resp = (.error s, 7) := by
  have hnf : s ∉ statusForcelist := status_not_forcelist h500 h429
  have htr : ∀ k, transportGet resp transportRetries k = (resp k, k + 1) :=
    fun k => transportGet_done _ (by rw [hs k]; exact hnf)
  have hb429 : ∀ k, ((resp k).status == 429) = false := fun k => by
    rw [hs k]
    exact beq_eq_false_iff_ne.mpr h429
  have hlt : ∀ k, ¬(resp k).status < 400 := fun k => by
    rw [hs k]
    omega
  have hloop : ∀ m k, getJsonFrom resp k (m + 1) = (.error s, k + (m + 1)) := by
    intro m
    induction m with
    | zero =>
      intro k
      rw [getJsonFrom_err_last resp k (resp k) (k + 1) (htr k) (hb429 k)
        (hlt k), hs k]
    | succ m ih =>
      intro k
      rw [getJsonFrom_err_step resp k m (resp k) (k + 1) (htr k) (hb429 k)
        (hlt k), ih (k + 1)]
      refine Prod.ext rfl ?_
      omega
  show getJsonFrom resp 0 7 = (.error s, 7)
  rw [show (7 : Nat) = 6 + 1 from rfl, hloop 6 0]

/-- The endpoint of the C3 counterexample: it always answers 404. -/
def c3Resp : Nat → HttpResp := fun _ => { status := 404, body := "" }

/-- C3 counterexample: against an endpoint that always answers 404 (a
non-retryable status), `_get_json` issues **7** requests before the error
propagates — not a single request with immediate propagation. -/
theorem non_retryable_retried_cex :
    get_json c3Resp = (.error 404, 7) ∧ (7 : Nat) ≠ 1 :=
  ⟨rfl, by decide⟩

/-- C3 witness: the amended theorem applied to the constant-404 endpoint. -/
theorem non_retryable_retried_witness :
    get_json c3Resp = (.error 404, 7) :=
  non_retryable_retried c3Resp 404 (fun _ => rfl) (by decide) (by decide)
    (by decide)

/-- C4: if the endpoint returns 429 on exactly the first 3 requests and 200
with a JSON body on the 4th, `_get_json` succeeds with that body after
exactly 4 requests (the three 429s are absorbed by the transport-layer
retry of the mounted adapter, whose budget of 6 covers them). -/
theorem retry_bound (resp : Nat → HttpResp) (b : String)
    (h429 : ∀ k, k < 3 → (resp k).status = 429)
    (h200 : (resp 3).status = 200)
    (hb : (resp 3).body = b) :
    get_json resp = (.ok b, 4) := by
  have h0 := h429 0 (by omega)
  have h1 := h429 1 (by omega)
  have h2 := h429 2 (by omega)
  have hnf : (resp 3).status ∉ statusForcelist := by
    rw [h200]
    decide
  have ht : transportGet resp transportRetries 0 = (resp 3, 4) := by
    show transportGet resp 6 0 = _
    rw [show (6 : Nat) = 5 + 1 from rfl, transportGet_step 5 h0]
    rw [show (5 : Nat) = 4 + 1 from rfl, transportGet_step 4 h1]
    rw [show (4 : Nat) = 3 + 1 from rfl, transportGet_step 3 h2]
    rw [transportGet_done 3 hnf]
  have hb429 : ((resp 3).status == 429) = false := by
    rw [h200]
    decide
  have hlt : (resp 3).status < 400 := by
    rw [h200]
    decide
  show getJsonFrom resp 0 7 = (.ok b, 4)
  rw [show (7 : Nat) = 6 + 1 from rfl,
    getJsonFrom_success resp 0 6 (resp 3) 4 ht hb429 hlt, hb]

/-- The endpoint of the C4 witness: 429 three times, then 200. -/
def c4Resp (k : Nat) : HttpResp :=
  if k < 3 then { status := 429, body := "" }
  else { status := 200, body := "payload" }

/-- C4 witness: the mock endpoint of the spec's retry-bound property. -/
theorem retry_bound_witness :
    get_json c4Resp = (.ok "payload", 4) :=
  retry_bound c4Resp "payload"
    (fun k hk => by unfold c4Resp; rw [if_pos hk]) rfl rfl

end Weather
